import Mathlib

/-!
Verification development for the fedoraQA operator scripts
(`script/tft-wait.py`, `script/report_results_noninteractiveNEW.py`,
`script/report_results_noninteractive.py`).

Python strings are modelled as `List Char`; the Python string operations
used by the scripts (`str.replace`, `str.strip`, `str.lower`,
`str.split`, `str.startswith`) are defined structurally below with the
exact semantics of CPython (left-to-right non-overlapping replacement
that does not rescan the replacement text, whitespace stripping at both
ends, per-character lowering, separator splitting that keeps empty
fields).  HTTP, XML parsing and the wiki client are external services;
they are modelled as oracles passed in as function arguments, and each
oracle call stands for one fetch (or fetch-and-parse) operation of the
real script.
-/

namespace FedoraQA

/-- Python `str.lower`, per character. -/
def pyLower (s : List Char) : List Char := s.map Char.toLower

/-- Python `str.strip()`: drop whitespace from both ends. -/
def pyStrip (s : List Char) : List Char :=
  ((s.dropWhile Char.isWhitespace).reverse.dropWhile Char.isWhitespace).reverse

/-- Auxiliary for `pyReplace`, with explicit fuel (the fuel is the length
of the scanned string, which suffices because every step consumes at
least one character of the input when the pattern is nonempty). -/
def pyReplaceAux (pat rep : List Char) : Nat → List Char → List Char
  | 0, s => s
  | _ + 1, [] => []
  | fuel + 1, c :: rest =>
    if pat ≠ [] ∧ pat.isPrefixOf (c :: rest) then
      rep ++ pyReplaceAux pat rep fuel ((c :: rest).drop pat.length)
    else
      c :: pyReplaceAux pat rep fuel rest

/-- Python `s.replace(pat, rep)`: replace every non-overlapping
occurrence of `pat`, scanning left to right and continuing after the
replaced text (the replacement is never rescanned). -/
def pyReplace (s pat rep : List Char) : List Char := pyReplaceAux pat rep s.length s

/-- Python `s.split(sep)` for a one-character separator: splits on every
occurrence of `sep` and keeps empty fields, so `"".split` gives one empty
field and a leading separator gives a leading empty field. -/
def py_split (sep : Char) : List Char → List (List Char)
  | [] => [[]]
  | c :: rest =>
    let r := py_split sep rest
    if c = sep then [] :: r
    else
      match r with
      | [] => [[c]]
      | h :: t => (c :: h) :: t

/-- The literal `"QA:"` stripped from wiki test-case identifiers. -/
def qa_colon : List Char := "QA:".data

/-- The literal `"Testcase_"` that normalized test-case names must begin with. -/
def testcase_lit : List Char := "Testcase_".data

/-- The literal `"/plans/"` that a test-suite path must begin with to be considered. -/
def plans_lit : List Char := "/plans/".data

/-- Test-case identifier normalization, embedded from the opening lines of
`match_qatestcase_with_fmf_plan_name`
(report_results_noninteractiveNEW.py lines 319-324):
`testcase_name = qatestcase.replace("QA:", "").strip()` followed by
`if not testcase_name.startswith("Testcase_"):
   testcase_name = f"Testcase_{testcase_name.replace('Testcase_', '')}"`. -/
def normalize_testcase_name (qatestcase : List Char) : List Char :=
  let testcase_name := pyStrip (pyReplace qatestcase qa_colon [])
  if testcase_lit.isPrefixOf testcase_name then testcase_name
  else testcase_lit ++ pyReplace testcase_name testcase_lit []

/-- One `<testsuite>` element of the fetched XUnit document: its `name`
and `result` attributes (`none` when the attribute is absent; the code
reads them with `testsuite.get(attr, "")`). -/
structure TestSuiteElem where
  name : Option (List Char)
  result : Option (List Char)
deriving DecidableEq, Repr

/-- The dictionary returned by `match_qatestcase_with_fmf_plan_name`. -/
structure MatchResult where
  qatestcase_found : Bool
  fmf_plan_name_found : Bool
  matching_test_plans : List (List Char × List Char)
  testcase_result : Option (List Char)
deriving DecidableEq, Repr

/-- `[elem for elem in test_plan_name.split('/') if elem]`. -/
def path_elements (nm : List Char) : List (List Char) :=
  (py_split '/' nm).filter (fun e => e ≠ [])

/-- One iteration of the `for testsuite in root.findall('.//testsuite')`
loop of `match_qatestcase_with_fmf_plan_name`
(report_results_noninteractiveNEW.py lines 339-372), acting on the
accumulated mutable state.  The two terminal returns of the Python inner
loops (setting the found flags with `break`) are equivalent to the `any`
scans used here. -/
def match_step (testcase_name fmf_plan_name_tag : List Char)
    (acc : MatchResult) (ts : TestSuiteElem) : MatchResult :=
  let test_plan_name := ts.name.getD []
  let test_plan_result := ts.result.getD []
  if plans_lit.isPrefixOf test_plan_name then
    let elems := path_elements test_plan_name
    let plan_name_in_path := elems.any (fun e => pyLower fmf_plan_name_tag == pyLower e)
    let testcase_in_path := elems.any (fun e => e == testcase_name)
    { qatestcase_found := acc.qatestcase_found || testcase_in_path,
      fmf_plan_name_found := acc.fmf_plan_name_found || plan_name_in_path,
      matching_test_plans :=
        if plan_name_in_path && testcase_in_path then
          acc.matching_test_plans ++ [(test_plan_name, test_plan_result)]
        else acc.matching_test_plans,
      testcase_result :=
        if plan_name_in_path && testcase_in_path && acc.testcase_result.isNone then
          some test_plan_result
        else acc.testcase_result }
  else acc

/-- The record produced by `fetch_and_cache_xunit_xml`: normalized
overall verdict, the two URLs, the parsed XML root (modelled as the
document-ordered list of its `testsuite` elements, or `none`), and the
extracted test-plan names. -/
structure XunitRecord where
  overall : List Char
  xunit_url : List Char
  artifacts_url : List Char
  xunit_xml_root : Option (List TestSuiteElem)
  test_plan_names : List (List Char)
deriving DecidableEq, Repr

/-- `match_qatestcase_with_fmf_plan_name`
(report_results_noninteractiveNEW.py lines 295-379): normalize the
test-case identifier, return the all-empty result when no XML root is
cached, otherwise fold the testsuite loop over the document. -/
def match_qatestcase_with_fmf_plan_name (xunit_data : XunitRecord)
    (qatestcase fmf_plan_name_tag : List Char) : MatchResult :=
  let testcase_name := normalize_testcase_name qatestcase
  match xunit_data.xunit_xml_root with
  | none => ⟨false, false, [], none⟩
  | some root => root.foldl (match_step testcase_name fmf_plan_name_tag) ⟨false, false, [], none⟩

/-! Spec-side characterizations of the matcher, used to state the claims.
They are read off the per-path conditions of `match_step`. -/

/-- A `/plans/`-path whose elements contain the normalized test-case name
(case-sensitive element equality). -/
def path_tc_hit (testcase_name : List Char) (ts : TestSuiteElem) : Bool :=
  plans_lit.isPrefixOf (ts.name.getD []) &&
    (path_elements (ts.name.getD [])).any (fun e => e == testcase_name)

/-- A `/plans/`-path whose elements contain the plan tag (case-insensitive
element equality). -/
def path_tag_hit (fmf_plan_name_tag : List Char) (ts : TestSuiteElem) : Bool :=
  plans_lit.isPrefixOf (ts.name.getD []) &&
    (path_elements (ts.name.getD [])).any (fun e => pyLower fmf_plan_name_tag == pyLower e)

/-- A path qualifies when both the tag and the test case hit it. -/
def path_qualifies (testcase_name fmf_plan_name_tag : List Char) (ts : TestSuiteElem) : Bool :=
  path_tag_hit fmf_plan_name_tag ts && path_tc_hit testcase_name ts

/-- The pair `(name, result)` recorded for a qualifying path. -/
def path_view (ts : TestSuiteElem) : List Char × List Char :=
  (ts.name.getD [], ts.result.getD [])

/-- Left-biased choice on `Option`, the shape of the
`if testcase_result is None` accumulation. -/
def opt_or {α : Type} (a b : Option α) : Option α :=
  match a with
  | some x => some x
  | none => b

/-- The result attribute of the first qualifying path in document order. -/
def first_qualifying_result (l : List TestSuiteElem) (testcase_name fmf_plan_name_tag : List Char) :
    Option (List Char) :=
  ((l.filter (path_qualifies testcase_name fmf_plan_name_tag)).head?).map
    (fun ts => ts.result.getD [])

/-! HTTP fetch with retry (`fetch_api_data`, tft-wait.py lines 15-41;
the same loop appears inline in `fetch_and_cache_xunit_xml`,
report_results_noninteractiveNEW.py lines 187-199 and 225-237). -/

/-- What one `requests.get` attempt can yield at the library boundary:
a connection-level failure or a response carrying a status code and an
optionally JSON-parsable body.  `requests` follows redirects itself, so
the status the script observes is the final one. -/
inductive HttpAttempt (α : Type) where
  | netError
  | response (status : Nat) (body : Option α)
deriving DecidableEq

/-- The transport errors of the `requests` library that the scripts
catch as `requests.exceptions.RequestException`. -/
inductive FetchErr where
  | connection
  | httpStatus (code : Nat)
  | parse
deriving DecidableEq, Repr

/-- `response = requests.get(url); response.raise_for_status();
return response.json()` for one attempt: a connection failure raises, a
status in the 400-599 range raises `HTTPError` in `raise_for_status`
(that method raises for client errors `400 <= code < 500` and server
errors `500 <= code < 600` only — any other status, a non-redirect 3xx
included, falls through), and a body that is not JSON raises when
`.json()` runs; all are `RequestException`s. -/
def attempt_result {α : Type} (a : HttpAttempt α) : Except FetchErr α :=
  match a with
  | .netError => .error .connection
  | .response status body =>
    if 400 ≤ status ∧ status ≤ 599 then .error (.httpStatus status)
    else
      match body with
      | some j => .ok j
      | none => .error .parse

/-- The `for attempt in range(1, max_retries + 1)` body of
`fetch_api_data`: `a` is the one-based attempt number, the second
argument counts the attempts still available.  Returns the outcome
(`none` models the implicit `return None` when the range is empty,
`some (.ok j)` a returned JSON value, `some (.error e)` the re-raised
transport error), the number of attempts performed and the list of
sleep durations (each `time.sleep(retry_interval)`). -/
def fetch_api_data_go {α : Type} (attempts : Nat → HttpAttempt α) (retry_interval : Nat) :
    Nat → Nat → Option (Except FetchErr α) × Nat × List Nat
  | _, 0 => (none, 0, [])
  | a, r + 1 =>
    match attempt_result (attempts a) with
    | .ok j => (some (.ok j), 1, [])
    | .error e =>
      if r = 0 then (some (.error e), 1, [])
      else
        let rest := fetch_api_data_go attempts retry_interval (a + 1) r
        (rest.1, rest.2.1 + 1, retry_interval :: rest.2.2)

/-- `fetch_api_data(api_url, max_retries, retry_interval)`
(tft-wait.py lines 15-41), with the successive attempt outcomes of the
URL supplied by the oracle `attempts`. -/
def fetch_api_data {α : Type} (attempts : Nat → HttpAttempt α) (max_retries retry_interval : Nat) :
    Option (Except FetchErr α) × Nat × List Nat :=
  fetch_api_data_go attempts retry_interval 1 max_retries

/-! XUnit fetch-and-cache (`fetch_and_cache_xunit_xml`,
report_results_noninteractiveNEW.py lines 163-292). -/

/-- The fields of the Testing Farm status JSON that
`fetch_and_cache_xunit_xml` reads: `result.overall`, `result.xunit_url`
and `run.artifacts`, each possibly absent. -/
structure ApiData where
  overall : Option (List Char)
  xunit_url : Option (List Char)
  artifacts : Option (List Char)
deriving DecidableEq

/-- The warn placeholder stored and returned when the status fetch fails
(report_results_noninteractiveNEW.py lines 269-292). -/
def warn_record : XunitRecord :=
  ⟨"warn".data, [], [], none, []⟩

/-- Overall-result normalization:
`if overall == 'passed': overall = 'pass'` and
`elif overall == 'failed': overall = 'fail'` (lines 213-216). -/
def normalize_overall (o : List Char) : List Char :=
  if o = "passed".data then "pass".data
  else if o = "failed".data then "fail".data
  else o

/-- `for testsuite in xunit_xml_root.findall('.//testsuite'):
test_plan_name = testsuite.get('name', ''); if test_plan_name:
test_plan_names.append(test_plan_name)` (lines 243-246). -/
def suite_names (suites : List TestSuiteElem) : List (List Char) :=
  (suites.map (fun ts => ts.name.getD [])).filter (fun nm => nm ≠ [])

/-- The body of `fetch_and_cache_xunit_xml` after a cache miss
(lines 185-292): `api` is the outcome of the whole status-fetch retry
cycle on the api URL, `xunit` the outcome of the fetch-and-parse cycle
on a given xunit URL (an `error` covers both a transport failure of the
XML download and an XML parse error, which the code logs and swallows,
leaving the root `None` and the name list empty). -/
def build_xunit_record (api : Except FetchErr ApiData)
    (xunit : List Char → Except FetchErr (List TestSuiteElem)) : XunitRecord :=
  match api with
  | .error _ => warn_record
  | .ok data =>
    let overall := normalize_overall (data.overall.getD "warn".data)
    let xunit_url := data.xunit_url.getD []
    let artifacts_url := data.artifacts.getD []
    if xunit_url ≠ [] then
      match xunit xunit_url with
      | .ok suites => ⟨overall, xunit_url, artifacts_url, some suites, suite_names suites⟩
      | .error _ => ⟨overall, xunit_url, artifacts_url, none, []⟩
    else ⟨overall, xunit_url, artifacts_url, none, []⟩

/-- `fetch_and_cache_xunit_xml(api_url, ..., cache)`
(report_results_noninteractiveNEW.py lines 163-292).  The cache is the
callers `dict` keyed by api URL (`none` models passing `cache=None`).
The third component counts the status-fetch cycles issued for `api_url`
by this call: `0` on a cache hit, `1` otherwise. -/
def fetch_and_cache_xunit_xml (api : List Char → Except FetchErr ApiData)
    (xunit : List Char → Except FetchErr (List TestSuiteElem))
    (api_url : List Char) (cache : Option (List (List Char × XunitRecord))) :
    XunitRecord × Option (List (List Char × XunitRecord)) × Nat :=
  match cache with
  | some c =>
    match c.lookup api_url with
    | some r => (r, some c, 0)
    | none =>
      let r := build_xunit_record (api api_url) xunit
      (r, some ((api_url, r) :: c), 1)
  | none => (build_xunit_record (api api_url) xunit, none, 1)

/-! Poll-until-terminal loop (`wait_for_completion`, tft-wait.py
lines 57-111). -/

/-- What one full `fetch_api_data(api_url)` call inside the poll loop
can do, as the loop sees it: return a status JSON whose `state` field is
`s` (`data.get('state', 'unknown')`), raise a
`requests.exceptions.RequestException` (swallowed by the first handler),
or raise any other exception (second handler). -/
inductive PollFetch where
  | ok (state : List Char)
  | reqError
  | otherError
deriving DecidableEq

/-- `state == 'complete'` or `state in ['error', 'failed', 'cancelled']`
(both branches return `(state, elapsed)`, so they are folded into one
test). -/
def terminal_state (s : List Char) : Bool :=
  s == "complete".data || s == "error".data || s == "failed".data || s == "cancelled".data

/-- The `while True` loop of `wait_for_completion`, under the
abstraction that fetches are instantaneous and each `time.sleep
(check_interval)` advances the clock by `check_interval`, so the elapsed
time at iteration `n` is `n * check_interval`.  The second argument is
the number of iterations left before `elapsed >= deadline_seconds`
becomes true; at `0` the code performs one final fetch and returns the
fetched state, or `timeout` when that fetch raises (lines 78-88). -/
def wait_loop (f : Nat → PollFetch) (check_interval : Nat) :
    Nat → Nat → List Char × Nat
  | n, 0 =>
    match f n with
    | .ok s => (s, n * check_interval)
    | _ => ("timeout".data, n * check_interval)
  | n, r + 1 =>
    match f n with
    | .ok s =>
      if terminal_state s then (s, n * check_interval)
      else wait_loop f check_interval (n + 1) r
    | .reqError => wait_loop f check_interval (n + 1) r
    | .otherError => ("error".data, n * check_interval)

/-- The number of loop iterations before the elapsed time
`n * check_interval` first reaches the deadline, i.e. the least `n`
with `n * check_interval ≥ deadline` (for a positive interval). -/
def deadline_iters (check_interval deadline : Nat) : Nat :=
  (deadline + check_interval - 1) / check_interval

/-- `wait_for_completion(api_url, check_interval, deadline_seconds)`
(tft-wait.py lines 57-111), with `f n` the outcome of the status fetch
performed at iteration `n`.  Returns `(final_state, elapsed_seconds)`. -/
def wait_for_completion (f : Nat → PollFetch) (check_interval deadline : Nat) :
    List Char × Nat :=
  wait_loop f check_interval 0 (deadline_iters check_interval deadline)

/-! Wiki result submission (`modify_testcase_result`,
report_results_noninteractiveNEW.py lines 382-578, modelled from the
point where the test-case row and environment have been resolved; and
`report_result`, report_results_noninteractive.py lines 39-183). -/

/-- One existing result entry of the wiki matrix row, as the external
wiki client exposes it. -/
structure WikiResult where
  status : List Char
  user : Option (List Char)
  comment : Option (List Char)
deriving DecidableEq, Repr

/-- Python truthiness of an optional string. -/
def str_truthy (s : Option (List Char)) : Bool :=
  match s with
  | some v => !(v == [])
  | none => false

/-- `comment_string(string, maxlen)` (both reporting scripts,
lines 22-38 of the NEW script): `None` passes through, the comment is
stripped, a stripped comment longer than `maxlen` raises `ValueError`,
an empty one is returned bare and a nonempty one is wrapped in
`<ref>...</ref>`. -/
def comment_string (s : Option (List Char)) (maxlen : Nat) :
    Except Unit (Option (List Char)) :=
  match s with
  | none => .ok none
  | some str =>
    let str := pyStrip str
    if maxlen ≠ 0 ∧ maxlen < str.length then .error ()
    else if str = [] then .ok (some [])
    else .ok (some ("<ref>".data ++ str ++ "</ref>".data))

/-- `r.user and isinstance(r.user, str) and r.user.lower() == username`
(line 514 of the NEW script, lines 166 of the old one); `username` is the
already-lowercased wiki login name. -/
def result_is_mine (username : List Char) (r : WikiResult) : Bool :=
  match r.user with
  | some u => !(u == []) && (pyLower u == username)
  | none => false

/-- `first_result = results_list[0]` followed by
`if first_result.comment and first_result.comment.strip()`
(lines 525-526): only the first existing entry is inspected. -/
def first_has_comment (results : List WikiResult) : Bool :=
  match results.head? with
  | some r => !(pyStrip (r.comment.getD []) == [])
  | none => false

/-- What `modify_testcase_result` does after resolving row and
environment: the early duplicate return
(`testcase_found: True, result_added: False`, no write), a `ValueError`
escaping from `comment_string`, or a call of `page.add_result` with the
constructed `wikitcms.result.Result(status, user, bugs, comment)`. -/
inductive SubmitOutcome where
  | duplicate_abort
  | raised
  | wrote (status user comment : List Char)
deriving DecidableEq, Repr

/-- Lines 510-555 of `modify_testcase_result`
(report_results_noninteractiveNEW.py): duplicate check against the
existing entries of the resolved environment, comment suppression when
the first existing entry already carries a nonblank comment, comment
formatting, and the construction of the written result
(`Result(status, "bot=true|" + username, bugs, comment)`).
`results` is the `results_list` of the resolved environment. -/
def modify_testcase_result (username : List Char) (results : List WikiResult)
    (allow_duplicate : Bool) (status : List Char) (comment : Option (List Char)) :
    SubmitOutcome :=
  let dup := results ≠ [] ∧ results.filter (result_is_mine username) ≠ []
  if dup ∧ allow_duplicate = false then .duplicate_abort
  else
    let comment1 :=
      if results ≠ [] ∧ str_truthy comment = true ∧ first_has_comment results = true then
        some []
      else comment
    match (if str_truthy comment1 then comment_string comment1 250 else .ok (some [])) with
    | .error _ => .raised
    | .ok c => .wrote status ("bot=true|".data ++ username) (c.getD [])

/-- What `report_result` (the older script) can do: a `ValueError`
escaping from `comment_string`, the `sys.exit(1)` performed when an
existing entry belongs to the same user, or a call of `page.add_result`
with `Result(status, username, bugs, comment)`. -/
inductive OldOutcome where
  | raised
  | exited
  | wrote (status user : List Char) (comment : Option (List Char))
deriving DecidableEq, Repr

/-- `report_result` (report_results_noninteractive.py lines 39-183),
reduced to the duplicate scan and the write: the comment is formatted
first (lines 65-67), then the loop over the existing entries of the
resolved environment exits the process on any entry whose user equals
the submitting identity case-insensitively (lines 156-168, executed
regardless of `allow_duplicate`, which this variant never reads), and
otherwise `page.add_result` runs (line 175). -/
def report_result (username : List Char) (current_result : List WikiResult)
    (status : List Char) (comment : Option (List Char)) : OldOutcome :=
  match (if str_truthy comment then comment_string comment 250 else .ok comment) with
  | .error _ => .raised
  | .ok c =>
    if current_result.any (result_is_mine username) then .exited
    else .wrote status username c

/-! Helper lemmas. -/

/-- A list is a `isPrefixOf` of itself followed by anything. -/
lemma isPrefixOf_append_self (l t : List Char) : l.isPrefixOf (l ++ t) = true := by
  induction l with
  | nil => simp [List.isPrefixOf]
  | cons a as ih => simp [List.isPrefixOf, ih]

@[simp] lemma opt_or_some {α : Type} (x : α) (b : Option α) : opt_or (some x) b = some x := rfl

@[simp] lemma opt_or_none_left {α : Type} (b : Option α) : opt_or none b = b := rfl

lemma opt_or_none_right {α : Type} (a : Option α) : opt_or a none = a := by
  cases a <;> rfl

/-- Whatever the input, the normalized test-case name begins with the
literal `Testcase_`. -/
lemma normalize_startsWith (q : List Char) :
    testcase_lit.isPrefixOf (normalize_testcase_name q) = true := by
  unfold normalize_testcase_name
  by_cases h : testcase_lit.isPrefixOf (pyStrip (pyReplace q qa_colon [])) = true
  · simp [h]
  · simp only [h, if_neg, Bool.false_eq_true, not_false_eq_true, ite_false]
    exact isPrefixOf_append_self _ _

/-- Closed form of the testsuite fold of
`match_qatestcase_with_fmf_plan_name`: the found flags aggregate the
per-path hits, the matching list is exactly the qualifying paths in
document order, and the captured result is the first qualifying result
unless the accumulator already holds one. -/
lemma match_fold (tc tag : List Char) :
    ∀ (l : List TestSuiteElem) (acc : MatchResult),
      l.foldl (match_step tc tag) acc =
        { qatestcase_found := acc.qatestcase_found || l.any (path_tc_hit tc),
          fmf_plan_name_found := acc.fmf_plan_name_found || l.any (path_tag_hit tag),
          matching_test_plans :=
            acc.matching_test_plans ++ (l.filter (path_qualifies tc tag)).map path_view,
          testcase_result := opt_or acc.testcase_result (first_qualifying_result l tc tag) } := by
  intro l
  induction l with
  | nil =>
    intro acc
    simp [first_qualifying_result, opt_or_none_right]
  | cons ts rest ih =>
    intro acc
    rw [List.foldl_cons, ih]
    by_cases hp : plans_lit.isPrefixOf (ts.name.getD []) = true
    · have hstep : match_step tc tag acc ts =
        { qatestcase_found :=
            acc.qatestcase_found ||
              (path_elements (ts.name.getD [])).any (fun e => e == tc),
          fmf_plan_name_found :=
            acc.fmf_plan_name_found ||
              (path_elements (ts.name.getD [])).any (fun e => pyLower tag == pyLower e),
          matching_test_plans :=
            if (path_elements (ts.name.getD [])).any (fun e => pyLower tag == pyLower e) &&
                (path_elements (ts.name.getD [])).any (fun e => e == tc) then
              acc.matching_test_plans ++ [(ts.name.getD [], ts.result.getD [])]
            else acc.matching_test_plans,
          testcase_result :=
            if (path_elements (ts.name.getD [])).any (fun e => pyLower tag == pyLower e) &&
                (path_elements (ts.name.getD [])).any (fun e => e == tc) &&
                acc.testcase_result.isNone then
              some (ts.result.getD [])
            else acc.testcase_result } := by
        simp [match_step, hp]
      rw [hstep]
      have hq : path_qualifies tc tag ts =
          ((path_elements (ts.name.getD [])).any (fun e => pyLower tag == pyLower e) &&
            (path_elements (ts.name.getD [])).any (fun e => e == tc)) := by
        simp [path_qualifies, path_tag_hit, path_tc_hit, hp, Bool.and_assoc, Bool.and_left_comm]
      have htc : path_tc_hit tc ts =
          (path_elements (ts.name.getD [])).any (fun e => e == tc) := by
        simp [path_tc_hit, hp]
      have htag : path_tag_hit tag ts =
          (path_elements (ts.name.getD [])).any (fun e => pyLower tag == pyLower e) := by
        simp [path_tag_hit, hp]
      by_cases hb : ((path_elements (ts.name.getD [])).any (fun e => pyLower tag == pyLower e) &&
          (path_elements (ts.name.getD [])).any (fun e => e == tc)) = true
      · cases hres : acc.testcase_result with
        | some v =>
          simp [List.any_cons, List.filter_cons, first_qualifying_result, opt_or, hq, htc, htag,
            hb, hres, path_view, Bool.or_assoc]
        | none =>
          simp [List.any_cons, List.filter_cons, first_qualifying_result, opt_or, hq, htc, htag,
            hb, hres, path_view, Bool.or_assoc]
      · cases hres : acc.testcase_result with
        | some v =>
          simp [List.any_cons, List.filter_cons, first_qualifying_result, opt_or, hq, htc, htag,
            hb, hres, path_view, Bool.or_assoc]
        | none =>
          simp [List.any_cons, List.filter_cons, first_qualifying_result, opt_or, hq, htc, htag,
            hb, hres, path_view, Bool.or_assoc]
    · have hstep : match_step tc tag acc ts = acc := by
        simp [match_step, hp]
      have hq : path_qualifies tc tag ts = false := by
        simp [path_qualifies, path_tag_hit, path_tc_hit, hp]
      have htc : path_tc_hit tc ts = false := by
        simp [path_tc_hit, hp]
      have htag : path_tag_hit tag ts = false := by
        simp [path_tag_hit, hp]
      simp [hstep, List.any_cons, List.filter_cons, first_qualifying_result, hq, htc, htag]

/-- When every status fetch yields either a non-terminal state or a
transport error, the poll loop runs all its iterations and ends at the
final-fetch branch. -/
lemma wait_loop_no_terminal (f : Nat → PollFetch) (i : Nat)
    (h : ∀ n, (∃ s, f n = .ok s ∧ terminal_state s = false) ∨ f n = .reqError) :
    ∀ (r n : Nat), wait_loop f i n r =
      ((match f (n + r) with
        | .ok s => s
        | _ => "timeout".data), (n + r) * i) := by
  intro r
  induction r with
  | zero =>
    intro n
    cases hfn : f n <;> simp [wait_loop, hfn]
  | succ r ih =>
    intro n
    rcases h n with ⟨s, hs, hterm⟩ | hreq
    · rw [wait_loop, hs]
      simp only [hterm, Bool.false_eq_true, if_false]
      rw [ih (n + 1)]
      have : n + 1 + r = n + (r + 1) := by omega
      rw [this]
    · rw [wait_loop, hreq]
      rw [ih (n + 1)]
      have : n + 1 + r = n + (r + 1) := by omega
      rw [this]

/-- For a positive interval, `deadline_iters` is the first iteration at
or past the deadline: its elapsed time reaches the deadline but falls
short of it by less than one interval. -/
lemma deadline_iters_bounds (i d : Nat) (hi : 0 < i) :
    d ≤ deadline_iters i d * i ∧ deadline_iters i d * i < d + i := by
  unfold deadline_iters
  have h1 := Nat.div_add_mod (d + i - 1) i
  have h2 : (d + i - 1) % i < i := Nat.mod_lt _ hi
  have h3 : (d + i - 1) / i * i = i * ((d + i - 1) / i) := Nat.mul_comm _ _
  generalize i * ((d + i - 1) / i) = Q at h1 h3
  rw [h3]
  omega

/-- If every attempt from `a` through `a + r - 1` fails, the retry loop
performs all `r` attempts, sleeps `r - 1` times for `retry_interval`
seconds, and re-raises the error of the last attempt. -/
lemma fetch_go_all_fail {α : Type} (att : Nat → HttpAttempt α) (ri : Nat) :
    ∀ (r a : Nat), 1 ≤ r →
      (∀ idx, a ≤ idx → idx ≤ a + r - 1 → ∃ e, attempt_result (att idx) = .error e) →
      fetch_api_data_go att ri a r =
        (some (attempt_result (att (a + r - 1))), r, List.replicate (r - 1) ri) := by
  intro r
  induction r with
  | zero => intro a h; omega
  | succ r ih =>
    intro a _ hfail
    obtain ⟨e, he⟩ := hfail a (le_refl a) (by omega)
    rcases Nat.eq_zero_or_pos r with hr0 | hrpos
    · subst hr0
      rw [fetch_api_data_go, he]
      simp [he]
    · rw [fetch_api_data_go, he]
      have hrne : ¬(r = 0) := by omega
      simp only [hrne, if_false]
      rw [ih (a + 1) hrpos (fun idx h1 h2 => hfail idx (by omega) (by omega))]
      have hidx : a + 1 + r - 1 = a + (r + 1) - 1 := by omega
      rw [hidx]
      have hrep : (ri :: List.replicate (r - 1) ri) = List.replicate (r + 1 - 1) ri := by
        have : r + 1 - 1 = (r - 1) + 1 := by omega
        rw [this, List.replicate_succ]
      simp [hrep]

/-- If all attempts before `k` fail and attempt `k` succeeds (within the
budget), the retry loop returns the JSON of attempt `k`, having made
`k - a + 1` attempts and slept `k - a` times. -/
lemma fetch_go_first_success {α : Type} (att : Nat → HttpAttempt α) (ri : Nat) :
    ∀ (r a k : Nat) (j : α), a ≤ k → k ≤ a + r - 1 → 1 ≤ r →
      attempt_result (att k) = .ok j →
      (∀ idx, a ≤ idx → idx < k → ∃ e, attempt_result (att idx) = .error e) →
      fetch_api_data_go att ri a r =
        (some (.ok j), k - a + 1, List.replicate (k - a) ri) := by
  intro r
  induction r with
  | zero => intro a k j h1 h2 h3; omega
  | succ r ih =>
    intro a k j hak hkr _ hok hfail
    rcases Nat.eq_or_lt_of_le hak with heq | hlt
    · subst heq
      rw [fetch_api_data_go, hok]
      simp
    · obtain ⟨e, he⟩ := hfail a (le_refl a) hlt
      have hrpos : 1 ≤ r := by omega
      rw [fetch_api_data_go, he]
      have hrne : ¬(r = 0) := by omega
      simp only [hrne, if_false]
      rw [ih (a + 1) k j (by omega) (by omega) hrpos hok
        (fun idx h1 h2 => hfail idx (by omega) h2)]
      have h1 : k - (a + 1) + 1 = k - a := by omega
      have h2 : (ri :: List.replicate (k - (a + 1)) ri) = List.replicate (k - a) ri := by
        have : k - a = (k - (a + 1)) + 1 := by omega
        rw [this, List.replicate_succ]
      simp [h1, h2]

/-! Claim theorems. -/

/-- C1: For every parsed XUnit report, plan tag and test-case
identifier, the matcher splits each test-suite path on the slash into
non-empty elements, matches the tag case-insensitively and the
normalized test-case name case-sensitively against the elements, counts
a path as qualifying only when both hold for that same path (capturing
its result attribute), the winning result is the first qualifying path
in document order and is `None` exactly when no path qualifies; on the
two-path example report with `testcase=QA:Testcase_base_startup` and
`tag=cloud`, exactly one path qualifies, the first. -/
theorem C1_match_qualifying (suites : List TestSuiteElem) (ov xu ar : List Char)
    (tn : List (List Char)) (qatestcase tag : List Char) :
    (match_qatestcase_with_fmf_plan_name ⟨ov, xu, ar, some suites, tn⟩ qatestcase
        tag).matching_test_plans =
      (suites.filter (path_qualifies (normalize_testcase_name qatestcase) tag)).map path_view
    ∧ (∀ ts ∈ suites,
        path_qualifies (normalize_testcase_name qatestcase) tag ts = true →
        (path_elements (ts.name.getD [])).any (fun e => pyLower tag == pyLower e) = true ∧
        (path_elements (ts.name.getD [])).any
          (fun e => e == normalize_testcase_name qatestcase) = true)
    ∧ (match_qatestcase_with_fmf_plan_name ⟨ov, xu, ar, some suites, tn⟩ qatestcase
        tag).testcase_result =
      ((match_qatestcase_with_fmf_plan_name ⟨ov, xu, ar, some suites, tn⟩ qatestcase
        tag).matching_test_plans).head?.map Prod.snd
    ∧ ((match_qatestcase_with_fmf_plan_name ⟨ov, xu, ar, some suites, tn⟩ qatestcase
        tag).testcase_result = none ↔
       (match_qatestcase_with_fmf_plan_name ⟨ov, xu, ar, some suites, tn⟩ qatestcase
        tag).matching_test_plans = [])
    ∧ (match_qatestcase_with_fmf_plan_name
        ⟨"pass".data, [], [],
          some [⟨some "/plans/cloud/local/wiki/Testcase_base_startup".data, some "passed".data⟩,
                ⟨some "/plans/other/Testcase_base_startup".data, some "passed".data⟩], []⟩
        "QA:Testcase_base_startup".data "cloud".data).matching_test_plans =
      [("/plans/cloud/local/wiki/Testcase_base_startup".data, "passed".data)] := by
  refine ⟨?_, ?_, ?_, ?_, ?_⟩
  · simp [match_qatestcase_with_fmf_plan_name, match_fold]
  · intro ts _ hq
    simp only [path_qualifies, path_tag_hit, path_tc_hit, Bool.and_eq_true] at hq
    exact ⟨hq.1.2, hq.2.2⟩
  · simp only [match_qatestcase_with_fmf_plan_name, match_fold, first_qualifying_result,
      List.head?_map, Option.map_map, opt_or_none_left, List.nil_append]
    rfl
  · simp [match_qatestcase_with_fmf_plan_name, match_fold, first_qualifying_result,
      List.head?_map]
  · decide

/-- C1 witness: the general characterization applied to the example
report, recovering that the winning result is the head of the matching
list there. -/
theorem C1_match_qualifying_witness :
    (match_qatestcase_with_fmf_plan_name
        ⟨"pass".data, [], [],
          some [⟨some "/plans/cloud/local/wiki/Testcase_base_startup".data, some "passed".data⟩,
                ⟨some "/plans/other/Testcase_base_startup".data, some "passed".data⟩], []⟩
        "QA:Testcase_base_startup".data "cloud".data).testcase_result =
      ((match_qatestcase_with_fmf_plan_name
        ⟨"pass".data, [], [],
          some [⟨some "/plans/cloud/local/wiki/Testcase_base_startup".data, some "passed".data⟩,
                ⟨some "/plans/other/Testcase_base_startup".data, some "passed".data⟩], []⟩
        "QA:Testcase_base_startup".data "cloud".data).matching_test_plans).head?.map Prod.snd :=
  (C1_match_qualifying
    [⟨some "/plans/cloud/local/wiki/Testcase_base_startup".data, some "passed".data⟩,
     ⟨some "/plans/other/Testcase_base_startup".data, some "passed".data⟩]
    "pass".data [] [] [] "QA:Testcase_base_startup".data "cloud".data).2.2.1

/-- C6 counterexample: the claim says only a leading `QA:` is stripped,
so `Testcase_aQA:b` (no leading `QA:`, already `Testcase_`-prefixed)
would be left unchanged; the code removes the interior `QA:` as well. -/
theorem C6_strip_counterexample :
    normalize_testcase_name "Testcase_aQA:b".data = "Testcase_ab".data
    ∧ "Testcase_ab".data ≠ "Testcase_aQA:b".data := by
  constructor
  · decide
  · decide

/-- C6 amended: normalization removes every occurrence of `QA:`
(case-sensitively, not only a leading one) and strips surrounding
whitespace; if the result does not already begin with `Testcase_`, every
occurrence of `Testcase_` is removed and the prefix is prepended, so the
prefix is never duplicated and every output begins with `Testcase_`;
both `QA:Testcase_base_startup` and `Testcase_base_startup` normalize to
`Testcase_base_startup`. -/
theorem C6_normalize_amended :
    (∀ q : List Char, testcase_lit.isPrefixOf (normalize_testcase_name q) = true)
    ∧ (∀ q : List Char, normalize_testcase_name q =
        (let t := pyStrip (pyReplace q qa_colon [])
         if testcase_lit.isPrefixOf t then t else testcase_lit ++ pyReplace t testcase_lit []))
    ∧ normalize_testcase_name "QA:Testcase_base_startup".data = "Testcase_base_startup".data
    ∧ normalize_testcase_name "Testcase_base_startup".data = "Testcase_base_startup".data
    ∧ normalize_testcase_name "Testcase_aQA:b".data = "Testcase_ab".data
    ∧ normalize_testcase_name "foo_Testcase_bar".data = "Testcase_foo_bar".data := by
  refine ⟨normalize_startsWith, fun q => rfl, ?_, ?_, ?_, ?_⟩ <;> decide

/-- C7 counterexample: normalization is not idempotent; for `QQA:A:` the
first pass produces `Testcase_QA:` (removing the two characters between
the two overlapping-looking occurrences re-creates a `QA:`), and the
second pass removes that residue. -/
theorem C7_idempotent_counterexample :
    normalize_testcase_name "QQA:A:".data = "Testcase_QA:".data
    ∧ normalize_testcase_name (normalize_testcase_name "QQA:A:".data) = "Testcase_".data
    ∧ normalize_testcase_name (normalize_testcase_name "QQA:A:".data) ≠
        normalize_testcase_name "QQA:A:".data := by
  refine ⟨?_, ?_, ?_⟩ <;> decide

/-- C7 amended: normalization is idempotent exactly on the inputs whose
normalized form is left unchanged by another `QA:`-removal-and-strip
pass — in particular whenever the normalized form contains no `QA:`
occurrence and carries no surrounding whitespace; it is not idempotent
in general. -/
theorem C7_idempotent_amended (x : List Char)
    (h : pyStrip (pyReplace (normalize_testcase_name x) qa_colon []) =
      normalize_testcase_name x) :
    normalize_testcase_name (normalize_testcase_name x) = normalize_testcase_name x := by
  have hp := normalize_startsWith x
  generalize hz : normalize_testcase_name x = z at h hp ⊢
  simp [normalize_testcase_name, h, hp]

/-- C7 witness: the amended idempotence at `QA:Testcase_base_startup`,
whose normalized form `Testcase_base_startup` is inert. -/
theorem C7_idempotent_amended_witness :
    normalize_testcase_name (normalize_testcase_name "QA:Testcase_base_startup".data) =
      normalize_testcase_name "QA:Testcase_base_startup".data :=
  C7_idempotent_amended "QA:Testcase_base_startup".data (by decide)

/-- C10: a test-suite whose name does not start with `/plans/` is
ignored entirely by the matcher — removing it from the document changes
nothing: not the matching-path list, not the winning result, not the
found flags — even if its path contains both the normalized test-case
name and the plan tag. -/
theorem C10_non_plans_ignored (l1 l2 : List TestSuiteElem) (ts : TestSuiteElem)
    (ov xu ar : List Char) (tn : List (List Char)) (qatestcase tag : List Char)
    (h : plans_lit.isPrefixOf (ts.name.getD []) = false) :
    match_qatestcase_with_fmf_plan_name ⟨ov, xu, ar, some (l1 ++ ts :: l2), tn⟩ qatestcase tag =
      match_qatestcase_with_fmf_plan_name ⟨ov, xu, ar, some (l1 ++ l2), tn⟩ qatestcase tag := by
  simp only [match_qatestcase_with_fmf_plan_name, List.foldl_append, List.foldl_cons]
  have hstep : ∀ A : MatchResult, match_step (normalize_testcase_name qatestcase) tag A ts = A := by
    intro A
    simp [match_step, h]
  rw [hstep]

/-- C10 witness: a path that contains both `cloud` and the normalized
test-case name but does not start with `/plans/` leaves the match result
of the empty document unchanged. -/
theorem C10_non_plans_ignored_witness :
    match_qatestcase_with_fmf_plan_name
        ⟨"pass".data, [], [],
          some [⟨some "/other/cloud/Testcase_base_startup".data, some "passed".data⟩], []⟩
        "QA:Testcase_base_startup".data "cloud".data =
      match_qatestcase_with_fmf_plan_name
        ⟨"pass".data, [], [], some [], []⟩
        "QA:Testcase_base_startup".data "cloud".data :=
  C10_non_plans_ignored [] []
    ⟨some "/other/cloud/Testcase_base_startup".data, some "passed".data⟩
    "pass".data [] [] [] "QA:Testcase_base_startup".data "cloud".data (by decide)

/-- C2: the XUnit fetch-and-cache performs at most one status-fetch
cycle per URL per cache lifetime: a URL already in the cache is answered
from the cache with no fetch; on a miss the computed record — the warn
placeholder included, when the status fetch fails — is stored under the
URL before being returned; hence a second call with the same URL and
the resulting cache issues no fetch and returns the same record. -/
theorem C2_cache_memoization (api : List Char → Except FetchErr ApiData)
    (xunit : List Char → Except FetchErr (List TestSuiteElem))
    (url : List Char) (c : List (List Char × XunitRecord)) :
    (∀ r, c.lookup url = some r →
      fetch_and_cache_xunit_xml api xunit url (some c) = (r, some c, 0))
    ∧ (c.lookup url = none →
      fetch_and_cache_xunit_xml api xunit url (some c) =
        (build_xunit_record (api url) xunit,
         some ((url, build_xunit_record (api url) xunit) :: c), 1)
      ∧ ((url, build_xunit_record (api url) xunit) :: c).lookup url =
          some (build_xunit_record (api url) xunit))
    ∧ (∀ e, api url = .error e → build_xunit_record (api url) xunit = warn_record)
    ∧ (∀ r1 c1 n1,
        fetch_and_cache_xunit_xml api xunit url (some c) = (r1, some c1, n1) →
        fetch_and_cache_xunit_xml api xunit url (some c1) = (r1, some c1, 0)) := by
  refine ⟨?_, ?_, ?_, ?_⟩
  · intro r hr
    simp [fetch_and_cache_xunit_xml, hr]
  · intro hr
    refine ⟨by simp [fetch_and_cache_xunit_xml, hr], ?_⟩
    simp [List.lookup]
  · intro e he
    simp [build_xunit_record, he]
  · intro r1 c1 n1 hcall
    cases hl : c.lookup url with
    | some r =>
      simp only [fetch_and_cache_xunit_xml, hl] at hcall
      cases hcall
      simp [fetch_and_cache_xunit_xml, hl]
    | none =>
      simp only [fetch_and_cache_xunit_xml, hl] at hcall
      cases hcall
      simp [fetch_and_cache_xunit_xml, List.lookup]

/-- C2 witness: with an empty cache and a status endpoint whose fetch
fails, the first call fetches once and stores the warn placeholder, and
the second call is answered from the cache with no fetch. -/
theorem C2_cache_memoization_witness :
    fetch_and_cache_xunit_xml (fun _ => .error .connection) (fun _ => .error .connection)
        "https://api.example/req/1".data
        (some [("https://api.example/req/1".data, warn_record)]) =
      (warn_record, some [("https://api.example/req/1".data, warn_record)], 0) :=
  (C2_cache_memoization (fun _ => .error .connection) (fun _ => .error .connection)
      "https://api.example/req/1".data [("https://api.example/req/1".data, warn_record)]).1
    warn_record (by decide)

/-- C3: when the status endpoint never reports a terminal state (every
poll yields a non-terminal state or a transport error), the poll loop
stops at the first iteration whose elapsed time reaches the deadline,
performs one final fetch attempt there, and returns the freshly fetched
state when that fetch succeeds and `timeout` otherwise; the elapsed time
at return reaches the deadline but exceeds it by less than one
`check_interval`, so the loop does not poll indefinitely. -/
theorem C3_wait_deadline (f : Nat → PollFetch) (check_interval deadline : Nat)
    (hi : 0 < check_interval)
    (h : ∀ n, (∃ s, f n = .ok s ∧ terminal_state s = false) ∨ f n = .reqError) :
    wait_for_completion f check_interval deadline =
      ((match f (deadline_iters check_interval deadline) with
        | .ok s => s
        | _ => "timeout".data), deadline_iters check_interval deadline * check_interval)
    ∧ deadline ≤ deadline_iters check_interval deadline * check_interval
    ∧ deadline_iters check_interval deadline * check_interval < deadline + check_interval := by
  obtain ⟨h1, h2⟩ := deadline_iters_bounds check_interval deadline hi
  refine ⟨?_, h1, h2⟩
  unfold wait_for_completion
  rw [wait_loop_no_terminal f check_interval h (deadline_iters check_interval deadline) 0]
  simp

/-- C3 witness: a status endpoint that always reports `running`, polled
every second against a two-second deadline, makes the loop return
`running` from the final fetch at elapsed time 2. -/
theorem C3_wait_deadline_witness :
    wait_for_completion (fun _ => PollFetch.ok "running".data) 1 2 = ("running".data, 2)
    ∧ (2 : Nat) ≤ 2 ∧ (2 : Nat) < 3 := by
  have h := C3_wait_deadline (fun _ => PollFetch.ok "running".data) 1 2 (by decide)
    (fun n => Or.inl ⟨"running".data, rfl, by decide⟩)
  exact ⟨h.1, by omega, by omega⟩

/-- C4 counterexample: a non-2xx status is not always treated as a
transport failure — `raise_for_status` raises only for statuses in the
400-599 range, so a 300 response whose body parses as JSON is returned
successfully on the very first attempt, with no retry, no sleep and no
raised error, contrary to the claim that any non-2xx status is retried
and escalated. -/
theorem C4_non2xx_counterexample :
    attempt_result (HttpAttempt.response 300 (some 7)) = .ok 7
    ∧ fetch_api_data (fun _ => HttpAttempt.response 300 (some 7)) 3 10 =
        (some (.ok 7), 1, []) := by
  constructor
  · rfl
  · rfl

/-- C4 amended: on any transport-level failure — a connection error, a
status in the 400-599 range raised by `raise_for_status`, or an
unparsable body — the fetch retries with a fixed `retry_interval` sleep
between attempts: if all `max_retries` attempts fail it performs exactly
`max_retries` attempts, sleeps `max_retries - 1` times, and re-raises
the error of the last attempt; on the first successful attempt `k` it
returns that attempt's parsed JSON after `k` attempts and `k - 1`
sleeps.  A non-2xx status is a transport failure only when it lies in
400-599; a response outside that range whose body parses as JSON is a
success (one whose body does not parse still fails, as a parse error). -/
theorem C4_fetch_retry {α : Type} (attempts : Nat → HttpAttempt α)
    (max_retries retry_interval : Nat) (hmax : 1 ≤ max_retries) :
    ((∀ a, 1 ≤ a → a ≤ max_retries → ∃ e, attempt_result (attempts a) = .error e) →
      fetch_api_data attempts max_retries retry_interval =
        (some (attempt_result (attempts max_retries)), max_retries,
         List.replicate (max_retries - 1) retry_interval))
    ∧ (∀ k j, 1 ≤ k → k ≤ max_retries → attempt_result (attempts k) = .ok j →
        (∀ a, 1 ≤ a → a < k → ∃ e, attempt_result (attempts a) = .error e) →
        fetch_api_data attempts max_retries retry_interval =
          (some (.ok j), k, List.replicate (k - 1) retry_interval))
    ∧ (∀ status body, 400 ≤ status → status ≤ 599 →
        ∃ e, attempt_result (HttpAttempt.response status (body : Option α)) = .error e)
    ∧ (∀ status (j : α), ¬(400 ≤ status ∧ status ≤ 599) →
        attempt_result (HttpAttempt.response status (some j)) = .ok j)
    ∧ (∀ status, ¬(400 ≤ status ∧ status ≤ 599) →
        attempt_result (HttpAttempt.response status (none : Option α)) = .error .parse) := by
  refine ⟨?_, ?_, ?_, ?_, ?_⟩
  · intro hfail
    unfold fetch_api_data
    rw [fetch_go_all_fail attempts retry_interval max_retries 1 hmax
      (fun idx hidx1 hidx2 => hfail idx hidx1 (by omega))]
    have : 1 + max_retries - 1 = max_retries := by omega
    rw [this]
  · intro k j hk1 hk2 hok hfail
    unfold fetch_api_data
    rw [fetch_go_first_success attempts retry_interval max_retries 1 k j hk1 (by omega) hmax hok
      (fun idx hidx1 hidx2 => hfail idx hidx1 hidx2)]
    have h1 : k - 1 + 1 = k := by omega
    rw [h1]
  · intro status body hst1 hst2
    refine ⟨.httpStatus status, ?_⟩
    simp [attempt_result, hst1, hst2]
  · intro status j hst
    simp [attempt_result, hst]
  · intro status hst
    simp [attempt_result, hst]

/-- C4 witness: two connection failures followed by a 200 response with
a JSON body yield the parsed value after three attempts and two
ten-second sleeps. -/
theorem C4_fetch_retry_witness :
    fetch_api_data (fun a => if a < 3 then HttpAttempt.netError else .response 200 (some 7)) 3 10 =
      (some (.ok 7), 3, [10, 10]) := by
  have h := (C4_fetch_retry (fun a => if a < 3 then HttpAttempt.netError else .response 200 (some 7))
      3 10 (by decide)).2.1 3 7 (by decide) (by decide) (by rfl)
    (fun a h1 h2 => ⟨.connection, by interval_cases a <;> rfl⟩)
  simpa using h

/-- C5 counterexample: when every status fetch fails with a transport
error (the inner retry exhausts and re-raises a `RequestException`), the
poll loop does not return `error` at elapsed time 0 — the first handler
swallows the exception and the loop keeps polling to the deadline,
returning `timeout` there. -/
theorem C5_first_fetch_counterexample :
    wait_for_completion (fun _ => PollFetch.reqError) 1 2 = ("timeout".data, 2)
    ∧ ("timeout".data, (2 : Nat)) ≠ ("error".data, (0 : Nat)) := by
  constructor
  · decide
  · decide

/-- C5 amended: a status fetch that raises `RequestException` — which is
all the inner fetch-with-retry ever re-raises — is swallowed by the poll
loop, on the first iteration as on any other, and polling continues to
the deadline, returning `timeout` there when every fetch so fails; the
loop returns `error` with elapsed time 0 only when the very first fetch
raises an exception that is not a `RequestException`. -/
theorem C5_first_fetch_amended (f : Nat → PollFetch) (check_interval deadline : Nat)
    (hi : 0 < check_interval) (hd : 0 < deadline) :
    ((∀ n, f n = .reqError) →
      wait_for_completion f check_interval deadline =
        ("timeout".data, deadline_iters check_interval deadline * check_interval)
      ∧ deadline ≤ deadline_iters check_interval deadline * check_interval
      ∧ deadline_iters check_interval deadline * check_interval < deadline + check_interval)
    ∧ (f 0 = .otherError →
      wait_for_completion f check_interval deadline = ("error".data, 0)) := by
  constructor
  · intro hf
    obtain ⟨h1, h2⟩ := deadline_iters_bounds check_interval deadline hi
    refine ⟨?_, h1, h2⟩
    unfold wait_for_completion
    rw [wait_loop_no_terminal f check_interval (fun n => Or.inr (hf n))
      (deadline_iters check_interval deadline) 0]
    rw [hf (0 + deadline_iters check_interval deadline)]
    simp
  · intro hf0
    have hpos : 1 ≤ deadline_iters check_interval deadline := by
      unfold deadline_iters
      rw [Nat.le_div_iff_mul_le hi]
      omega
    obtain ⟨r, hr⟩ : ∃ r, deadline_iters check_interval deadline = r + 1 :=
      ⟨deadline_iters check_interval deadline - 1, by omega⟩
    unfold wait_for_completion
    rw [hr, wait_loop, hf0]
    simp

/-- C5 witness: the amended statement at a concrete run — every fetch a
transport failure, interval 2, deadline 3 — returning `timeout` at
elapsed time 4, within one interval of the deadline. -/
theorem C5_first_fetch_amended_witness :
    wait_for_completion (fun _ => PollFetch.reqError) 2 3 = ("timeout".data, 4)
    ∧ (3 : Nat) ≤ 4 ∧ (4 : Nat) < 5 := by
  have h := (C5_first_fetch_amended (fun _ => PollFetch.reqError) 2 3 (by decide) (by decide)).1
    (fun n => rfl)
  exact ⟨h.1, by omega, by omega⟩

/-- C8: when some existing result entry for the resolved row and
environment was authored by the submitting identity (case-insensitively)
and `allow_duplicate` is false, the submission aborts before the wiki
write: the NEW script returns the early dictionary
(`testcase_found: True, result_added: False`), and the old script never
reaches `page.add_result` either (it exits the process, or raises from
the comment length check, on every path). -/
theorem C8_duplicate_abort (username status : List Char) (results : List WikiResult)
    (comment : Option (List Char))
    (h : ∃ r ∈ results, result_is_mine username r = true) :
    modify_testcase_result username results false status comment = .duplicate_abort
    ∧ ∀ st u c, report_result username results status comment ≠ OldOutcome.wrote st u c := by
  obtain ⟨r, hr, hmine⟩ := h
  constructor
  · have hne : results ≠ [] := by
      intro hnil
      rw [hnil] at hr
      exact absurd hr (List.not_mem_nil r)
    have hfil : results.filter (result_is_mine username) ≠ [] := by
      intro hnil
      have : r ∈ results.filter (result_is_mine username) := List.mem_filter.mpr ⟨hr, hmine⟩
      rw [hnil] at this
      exact absurd this (List.not_mem_nil r)
    simp [modify_testcase_result, hne, hfil]
  · intro st u c
    have hany : results.any (result_is_mine username) = true :=
      List.any_eq_true.mpr ⟨r, hr, hmine⟩
    unfold report_result
    cases hfmt : (if str_truthy comment then comment_string comment 250 else .ok comment) with
    | error e => simp
    | ok v => simp [hany]

/-- C8 witness: a row holding one entry by `Alice` blocks a duplicate
submission by the lowercased identity `alice`. -/
theorem C8_duplicate_abort_witness :
    modify_testcase_result "alice".data [⟨"pass".data, some "Alice".data, none⟩]
        false "pass".data (some "hi".data) = .duplicate_abort :=
  (C8_duplicate_abort "alice".data "pass".data [⟨"pass".data, some "Alice".data, none⟩]
    (some "hi".data) ⟨⟨"pass".data, some "Alice".data, none⟩, by simp, by decide⟩).1

/-- C9 counterexample: the environment already holds an entry with a
non-empty comment (the second one), yet a new submission with a
non-empty comment is written with that comment wrapped in `<ref>` tags,
not with an empty comment — the code inspects only the first existing
entry, and here the first entry has no comment. -/
theorem C9_comment_counterexample :
    modify_testcase_result "alice".data
        [⟨"pass".data, some "bob".data, none⟩,
         ⟨"fail".data, some "carol".data, some "earlier note".data⟩]
        false "pass".data (some "hello".data) =
      .wrote "pass".data "bot=true|alice".data "<ref>hello</ref>".data
    ∧ "<ref>hello</ref>".data ≠ ([] : List Char) := by
  constructor
  · decide
  · decide

/-- C9 amended: a submission whose non-empty comment lands on a row
whose FIRST existing entry for the environment already carries a
comment that is non-empty after stripping is written with an empty
comment; only the first entry is inspected, so a comment on a later
entry does not suppress.  (Stated away from the duplicate-abort path.) -/
theorem C9_comment_suppression_amended (username status comment : List Char)
    (results : List WikiResult) (allow_duplicate : Bool)
    (hnodup : results.filter (result_is_mine username) = [] ∨ allow_duplicate = true)
    (hfirst : first_has_comment results = true)
    (hc : comment ≠ []) :
    modify_testcase_result username results allow_duplicate status (some comment) =
      .wrote status ("bot=true|".data ++ username) [] := by
  have hne : results ≠ [] := by
    intro hnil
    rw [hnil] at hfirst
    simp [first_has_comment] at hfirst
  have htruthy : str_truthy (some comment) = true := by
    simp [str_truthy, hc]
  have hdup : ¬((results ≠ [] ∧ results.filter (result_is_mine username) ≠ []) ∧
      allow_duplicate = false) := by
    rcases hnodup with hfil | htrue
    · intro hcon
      exact hcon.1.2 hfil
    · intro hcon
      rw [htrue] at hcon
      exact absurd hcon.2 (by simp)
  unfold modify_testcase_result
  rw [if_neg hdup]
  simp only [hne, htruthy, hfirst, ne_eq, not_true_eq_false, false_implies, and_self,
    if_true, true_and, not_false_eq_true]
  simp [str_truthy]

/-- C9 witness: the amended suppression on a row whose single (hence
first) entry carries the comment `note`. -/
theorem C9_comment_suppression_amended_witness :
    modify_testcase_result "alice".data [⟨"pass".data, some "bob".data, some "note".data⟩]
        false "pass".data (some "hello".data) =
      .wrote "pass".data ("bot=true|".data ++ "alice".data) [] :=
  C9_comment_suppression_amended "alice".data "pass".data "hello".data
    [⟨"pass".data, some "bob".data, some "note".data⟩] false
    (Or.inl (by decide)) (by decide) (by decide)

end FedoraQA
